import Mathlib

/-!
Verification of the CampusVoice backend core: the vote ledger
(`DatabaseService.vote_on_complaint` in services/db_service.py), the status
workflow (`DatabaseService.update_complaint_status`), the priority scorer
(`LLMService.calculate_priority_score` / `get_priority_label` in
services/llm_service.py), and the realtime connection registry
(`ConnectionManager` in websocket_handler.py).

Modelling conventions:
- The SQLAlchemy tables become plain records; the database session becomes an
  explicit `DBState` value threaded through the operations.  The committed
  state is the `DBState`; `rollback` is modelled by returning the input state.
- Python ints are `Int`; vote counters are `Int` (the `Integer` columns can in
  principle hold any integer - non-negativity is proved, not assumed).
- `calculate_priority_score` mixes ints with the float `downvotes * 0.5`.
  Every intermediate value is an exact multiple of 1/2, so the model computes
  with the doubled value and truncates with `Int.tdiv` (Python `int()`
  truncates toward zero).
- Commits may fail: `vote_on_complaint_g` takes one flag per commit site
  (the mutation commit and the priority-recalculation commit).  A failed
  mutation commit is caught by the outer `except` which rolls back; a failed
  priority commit is caught by the inner `except` and swallowed, exactly as
  in the source.
- WebSocket channels are `Nat` ids; a Python `set` is a duplicate-free list;
  iteration order of a set is the list order (one fixed linearization).
  Send failures are an oracle `sendOk : Nat → Bool` for the broadcast.
- Wall-clock columns other than `resolved_at` (`created_at`, `updated_at`,
  ORM `onupdate` triggers) are outside the model; `resolved_at` stores an
  abstract timestamp `Nat`.
-/

namespace CampusVoice

/-- A parsed `llm_analysis` JSON blob, with exactly the three keys that
`LLMService.calculate_priority_score` reads via `dict.get`; a `none` field is
an absent key. -/
structure Analysis where
  priority : Option String
  urgency_score : Option Int
  impact_level : Option String
deriving DecidableEq, Repr

/-- The `priority_scores` dict lookup `priority_scores.get(p, 300)` in
`calculate_priority_score` (llm_service.py). -/
def priority_base_score (p : String) : Int :=
  if p = "low" then 100
  else if p = "medium" then 300
  else if p = "high" then 700
  else if p = "critical" then 1500
  else 300

/-- The `impact_scores` dict lookup `impact_scores.get(i, 50)` in
`calculate_priority_score` (llm_service.py). -/
def impact_bonus (i : String) : Int :=
  if i = "individual" then 50
  else if i = "group" then 150
  else if i = "campus-wide" then 300
  else 50

/-- `LLMService.calculate_priority_score(analysis, upvotes, downvotes)`
(llm_service.py lines 208-253).  The Python computes
`score = base + urgency + impact + max(0, (upvotes - downvotes*0.5) * 5)`
and returns `min(int(score), 2000)`.  The float part is an exact multiple of
1/2, so we compute the doubled score and truncate toward zero with
`Int.tdiv`, which is what Python `int()` does. -/
def calculate_priority_score (analysis : Analysis) (upvotes downvotes : Int) : Int :=
  let base := priority_base_score (analysis.priority.getD ("medium"))
  let urgency := analysis.urgency_score.getD 50
  let impact := impact_bonus (analysis.impact_level.getD ("individual"))
  let vote_influence2 := max 0 (10 * upvotes - 5 * downvotes)
  min (Int.tdiv (2 * (base + urgency + impact) + vote_influence2) 2) 2000

/-- The priority score as the specification's words describe it (spec 4.1 and
claim C5): base + urgency + impact + the vote influence
`max(0, upvotes - downvotes*0.5) * 5` truncated to an integer, with the
*total clamped to [0, 2000]*.  Kept separate from
`calculate_priority_score` so the two can be compared. -/
def spec_priority_score (analysis : Analysis) (upvotes downvotes : Int) : Int :=
  let base := priority_base_score (analysis.priority.getD ("medium"))
  let urgency := analysis.urgency_score.getD 50
  let impact := impact_bonus (analysis.impact_level.getD ("individual"))
  let vote_influence := Int.tdiv (max 0 (10 * upvotes - 5 * downvotes)) 2
  min 2000 (max 0 (base + urgency + impact + vote_influence))

/-- `LLMService.get_priority_label(priority_score)` (llm_service.py lines
255-272). -/
def get_priority_label (priority_score : Int) : String :=
  if 1500 ≤ priority_score then "critical"
  else if 700 ≤ priority_score then "high"
  else if 300 ≤ priority_score then "medium"
  else "low"

/-- Rank of the four priority labels, for stating monotonicity of the label
mapping (higher score never yields a lower-ranked label). -/
def priority_label_rank (label : String) : Nat :=
  if label = "critical" then 3
  else if label = "high" then 2
  else if label = "medium" then 1
  else 0

/-- Python `str.capitalize()`: first character upper-cased, rest
lower-cased.  Used for the vote messages. -/
def pyCapitalize (s : String) : String :=
  match s.data with
  | [] => ""
  | c :: cs => String.mk (c.toUpper :: cs.map Char.toLower)

-- ============================================================
-- Association lists modelling Python dicts / keyed DB rows
-- ============================================================

section AList

variable {α : Type}

/-- Lookup of the first binding of a key (a dict has at most one). -/
def alistLookup : List (String × α) → String → Option α
  | [], _ => none
  | (k, v) :: rest, key => if k == key then some v else alistLookup rest key

/-- Overwrite the value of an existing key; no-op when the key is absent. -/
def alistUpdate : List (String × α) → String → α → List (String × α)
  | [], _, _ => []
  | (k, v) :: rest, key, v' =>
      if k == key then (k, v') :: rest else (k, v) :: alistUpdate rest key v'

/-- Dict assignment `d[key] = v`: overwrite when present, append when
absent. -/
def alistSet : List (String × α) → String → α → List (String × α)
  | [], key, v' => [(key, v')]
  | (k, v) :: rest, key, v' =>
      if k == key then (k, v') :: rest else (k, v) :: alistSet rest key v'

/-- Dict deletion `del d[key]`.  A dict holds each key at most once, so
dropping every binding of the key is the deletion of that one binding. -/
def alistRemove (l : List (String × α)) (key : String) : List (String × α) :=
  l.filter (fun p => !(p.1 == key))

end AList

-- ============================================================
-- Data model (models_db.py)
-- ============================================================

/-- A row of `ComplaintDB` (models_db.py), restricted to the fields the
verified operations read or write.  The complaint id is the key under which
the record is stored in `DBState.complaints`. -/
structure Complaint where
  upvotes : Int
  downvotes : Int
  status : String
  priority : String
  llm_analysis : Option Analysis
  llm_priority_score : Int
  resolved_at : Option Nat
deriving DecidableEq, Repr

/-- A row of `VoteDB` (models_db.py): the (complaint, voter) pair plus the
vote type. -/
structure Vote where
  complaint_id : String
  student_id : Nat
  vote_type : String
deriving DecidableEq, Repr

/-- A row of `StatusUpdateDB` (models_db.py): the append-only audit record
written by `update_complaint_status`. -/
structure StatusUpdateRec where
  complaint_id : String
  old_status : String
  new_status : String
  updated_by : Nat
  reason : Option String
deriving DecidableEq, Repr

/-- The committed database state: complaints keyed by id, the votes table in
insertion order, and the append-only status-update audit trail. -/
structure DBState where
  complaints : List (String × Complaint)
  votes : List Vote
  status_updates : List StatusUpdateRec
deriving DecidableEq, Repr

/-- The fresh complaint row built by `DatabaseService.create_complaint`
(db_service.py lines 161-176): zero counters, status `raised`. -/
def create_complaint (priority : String) (llm_analysis : Option Analysis) : Complaint :=
  { upvotes := 0
    downvotes := 0
    status := "raised"
    priority := priority
    llm_analysis := llm_analysis
    llm_priority_score := 0
    resolved_at := none }

/-- A database holding exactly one freshly created complaint and no votes. -/
def initialDB (cid : String) (priority : String) (llm_analysis : Option Analysis) : DBState :=
  { complaints := [(cid, create_complaint priority llm_analysis)]
    votes := []
    status_updates := [] }

-- ============================================================
-- Vote table helpers
-- ============================================================

/-- The WHERE clause of the existing-vote query in `vote_on_complaint`:
`VoteDB.complaint_id == complaint_id AND VoteDB.student_id == student_id`. -/
def voteMatches (cid : String) (sid : Nat) (v : Vote) : Bool :=
  v.complaint_id == cid && v.student_id == sid

/-- `result.scalars().first()` of the existing-vote query: the first matching
row. -/
def findVote (votes : List Vote) (cid : String) (sid : Nat) : Option Vote :=
  votes.find? (voteMatches cid sid)

/-- `self.db.delete(existing_vote)`: remove the first row matching the
(complaint, voter) pair. -/
def eraseVote : List Vote → String → Nat → List Vote
  | [], _, _ => []
  | v :: vs, cid, sid =>
      if voteMatches cid sid v then vs else v :: eraseVote vs cid sid

/-- `existing_vote.vote_type = vote_type`: flip the type of the first row
matching the (complaint, voter) pair. -/
def setVoteType : List Vote → String → Nat → String → List Vote
  | [], _, _, _ => []
  | v :: vs, cid, sid, t =>
      if voteMatches cid sid v then { v with vote_type := t } :: vs
      else v :: setVoteType vs cid sid t

/-- Number of vote rows satisfying a predicate. -/
def countP (p : Vote → Bool) (votes : List Vote) : Nat :=
  (votes.filter p).length

/-- Number of vote rows of a given type attached to a complaint. -/
def typedVoteCount (votes : List Vote) (cid t : String) : Nat :=
  countP (fun v => v.complaint_id == cid && v.vote_type == t) votes

/-- Number of vote rows attached to a complaint, of any type. -/
def complaintVoteCount (votes : List Vote) (cid : String) : Nat :=
  countP (fun v => v.complaint_id == cid) votes

/-- The `unique_vote_per_user` constraint of `VoteDB.__table_args__`
(models_db.py lines 124-128): no two rows share a (complaint, voter) pair. -/
def VoteKeyUnique (votes : List Vote) : Prop :=
  List.Pairwise
    (fun a b => ¬(a.complaint_id = b.complaint_id ∧ a.student_id = b.student_id)) votes

-- ============================================================
-- The vote operation (db_service.py lines 366-544)
-- ============================================================

/-- The dictionary returned by `vote_on_complaint`: `ok` is the
`success: True` dict (its `old_priority` / `new_priority` keys are `None`
unless `priority_updated`); `err` is the `success: False` dict, whose
`action` key is `None`. -/
inductive VoteOutcome where
  | ok (message : String) (action : String) (upvotes downvotes : Int)
      (priority_updated : Bool) (old_priority new_priority : Option String)
  | err (message : String)
deriving DecidableEq, Repr

/-- The three mutation cases of `vote_on_complaint` (CASE 1 create, CASE 2
toggle off, CASE 3 switch), producing the updated complaint row, the updated
votes table, and the reported action and message. -/
structure MutationStep where
  complaint : Complaint
  votes : List Vote
  action : String
  message : String
deriving Repr

/-- Lines 417-477 of db_service.py: create / toggle-off / switch.  Note that
the source never validates `vote_type` here: in CASE 1 any type other than
`"upvote"` increments the `downvotes` counter. -/
def applyVoteMutation (cid : String) (sid : Nat) (vote_type : String)
    (c : Complaint) (votes : List Vote) : MutationStep :=
  match findVote votes cid sid with
  | none =>
      let c' := if vote_type = "upvote" then { c with upvotes := c.upvotes + 1 }
                else { c with downvotes := c.downvotes + 1 }
      { complaint := c'
        votes := votes ++ [{ complaint_id := cid, student_id := sid, vote_type := vote_type }]
        action := "created"
        message := pyCapitalize vote_type ++ " added" }
  | some existing_vote =>
      if existing_vote.vote_type = vote_type then
        let c' := if vote_type = "upvote" then { c with upvotes := max 0 (c.upvotes - 1) }
                  else { c with downvotes := max 0 (c.downvotes - 1) }
        { complaint := c'
          votes := eraseVote votes cid sid
          action := "deleted"
          message := pyCapitalize vote_type ++ " removed" }
      else
        let c' := if existing_vote.vote_type = "upvote" then
                    { c with upvotes := max 0 (c.upvotes - 1), downvotes := c.downvotes + 1 }
                  else
                    { c with downvotes := max 0 (c.downvotes - 1), upvotes := c.upvotes + 1 }
        { complaint := c'
          votes := setVoteType votes cid sid vote_type
          action := "updated"
          message := "Vote changed to " ++ vote_type }

/-- Lines 479-522 of db_service.py: recompute the priority from the stored
analysis and the new counters; when the label changed, persist the new label
and score (that commit may fail, in which case the inner `except` swallows
the error and `priority_updated` stays false).  Returns the
`priority_updated` flag and the complaint row as committed. -/
def recalcPriority (commitOk : Bool) (old_priority : String) (c : Complaint) :
    Bool × Complaint :=
  match c.llm_analysis with
  | none => (false, c)
  | some analysis =>
      let score := calculate_priority_score analysis c.upvotes c.downvotes
      let new_priority := get_priority_label score
      if new_priority ≠ old_priority then
        if commitOk then
          (true, { c with priority := new_priority, llm_priority_score := score })
        else (false, c)
      else (false, c)

/-- `DatabaseService.vote_on_complaint` (db_service.py lines 366-544),
parameterized by the success of its two commit sites: `c1ok` for the
mutation commit (lines 434/450/473), `c2ok` for the priority commit (line
515).  A failed mutation commit reaches the outer `except`, which rolls back
and returns the `success: False` dict; a failed priority commit is swallowed
by the inner `except`. -/
def vote_on_complaint_g (c1ok c2ok : Bool) (cid : String) (sid : Nat)
    (vote_type : String) (db : DBState) : VoteOutcome × DBState :=
  match alistLookup db.complaints cid with
  | none => (.err ("Complaint not found"), db)
  | some c =>
      let old_priority := c.priority
      let step := applyVoteMutation cid sid vote_type c db.votes
      if c1ok then
        let db1 : DBState :=
          { db with complaints := alistUpdate db.complaints cid step.complaint
                    votes := step.votes }
        let r := recalcPriority c2ok old_priority step.complaint
        let db2 : DBState :=
          if r.1 then { db1 with complaints := alistUpdate db1.complaints cid r.2 }
          else db1
        (.ok step.message step.action r.2.upvotes r.2.downvotes r.1
            (if r.1 then some old_priority else none)
            (if r.1 then some r.2.priority else none), db2)
      else
        (.err ("Vote error: commit failed"), db)

/-- The vote operation with both commits succeeding (the non-faulty run). -/
def vote_on_complaint (cid : String) (sid : Nat) (vote_type : String)
    (db : DBState) : VoteOutcome × DBState :=
  vote_on_complaint_g true true cid sid vote_type db

/-- The `vote_type` validation of the REST boundary: pydantic pattern
`^(upvote|downvote)$` on `VoteRequest.vote_type` (api/routes.py line 66). -/
def validVoteTypePattern (t : String) : Bool :=
  t == "upvote" || t == "downvote"

/-- Result of the `/api/vote` endpoint as seen by the caller:
`validationError` is the 422 rejection pydantic produces before the handler
body runs. -/
inductive ApiVoteResponse where
  | validationError
  | handled (r : VoteOutcome)
deriving DecidableEq, Repr

/-- The `/api/vote` endpoint (api/routes.py lines 439-525) restricted to the
vote-type validation and the ledger call: an invalid `vote_type` never
reaches `vote_on_complaint`. -/
def api_vote (cid : String) (sid : Nat) (vote_type : String) (db : DBState) :
    ApiVoteResponse × DBState :=
  if validVoteTypePattern vote_type then
    let r := vote_on_complaint cid sid vote_type db
    (.handled r.1, r.2)
  else
    (.validationError, db)

/-- A single request to the vote endpoint, for iterating the ledger. -/
structure VoteOp where
  complaint_id : String
  student_id : Nat
  vote_type : String
deriving DecidableEq, Repr

/-- Apply a sequence of vote operations to a database. -/
def applyVotes (ops : List VoteOp) (db : DBState) : DBState :=
  ops.foldl (fun d o => (vote_on_complaint o.complaint_id o.student_id o.vote_type d).2) db

-- ============================================================
-- The status workflow (db_service.py lines 293-336)
-- ============================================================

/-- `DatabaseService.update_complaint_status` (db_service.py lines 293-336):
loads the complaint (raising `ValueError`, modelled as `.error`, when
absent), sets the new status, sets `resolved_at` exactly when the new status
is `"closed"`, and appends one `StatusUpdateDB` audit record. -/
def update_complaint_status (cid new_status : String) (updated_by : Nat)
    (reason : Option String) (now : Nat) (db : DBState) :
    Except String Unit × DBState :=
  match alistLookup db.complaints cid with
  | none => (.error ("Complaint " ++ cid ++ " not found"), db)
  | some c =>
      let old_status := c.status
      let c' := { c with
        status := new_status
        resolved_at := if new_status = "closed" then some now else c.resolved_at }
      (.ok (),
        { db with
          complaints := alistUpdate db.complaints cid c'
          status_updates := db.status_updates ++
            [{ complaint_id := cid, old_status := old_status, new_status := new_status
               updated_by := updated_by, reason := reason }] })

-- ============================================================
-- The realtime connection registry (websocket_handler.py)
-- ============================================================

/-- `ConnectionManager` (websocket_handler.py lines 22-42): the
`active_connections` dict from complaint id to the set of open channels,
plus the two lifetime counters.  Channels are `Nat` ids; a set is a
duplicate-free list. -/
structure ConnManager where
  active_connections : List (String × List Nat)
  total_connections : Nat
  total_disconnections : Nat
deriving DecidableEq, Repr

/-- A manager with no connections. -/
def freshManager : ConnManager :=
  { active_connections := [], total_connections := 0, total_disconnections := 0 }

/-- `ConnectionManager.connect` (websocket_handler.py lines 49-90): create
the complaint's entry when absent, add the channel to its set, bump the
counter.  (The welcome message send is wrapped in its own try/except and
never fails the connect.) -/
def connectClient (mgr : ConnManager) (cid : String) (sock : Nat) : ConnManager :=
  let cur := (alistLookup mgr.active_connections cid).getD []
  let s' := if sock ∈ cur then cur else cur ++ [sock]
  { mgr with
    active_connections := alistSet mgr.active_connections cid s'
    total_connections := mgr.total_connections + 1 }

/-- `ConnectionManager.disconnect` (websocket_handler.py lines 93-117):
discard the channel from the complaint's set, delete the entry when the set
became empty, bump the disconnect counter (which happens even when the entry
was already gone). -/
def disconnectClient (mgr : ConnManager) (cid : String) (sock : Nat) : ConnManager :=
  let ac :=
    match alistLookup mgr.active_connections cid with
    | none => mgr.active_connections
    | some s =>
        let s' := s.erase sock
        if s' = [] then alistRemove mgr.active_connections cid
        else alistUpdate mgr.active_connections cid s'
  { mgr with
    active_connections := ac
    total_disconnections := mgr.total_disconnections + 1 }

/-- Outcome of a broadcast: the channels that received the payload, whether
the call raised (see `raised` below), and the manager afterwards. -/
structure BroadcastResult where
  delivered : List Nat
  raised : Bool
  mgr : ConnManager
deriving DecidableEq, Repr

/-- Common body of `ConnectionManager.broadcast_vote_update` (lines 138-186)
and `broadcast_status_update` (lines 189-227): early return when the
complaint has no entry; send to every member of the set, collecting the
channels whose send errored; disconnect each of those; finally log
`len(self.active_connections[complaint_id])` - a dict access that raises
`KeyError` when the cleanup deleted the entry, i.e. exactly when the
remaining set is gone.  `raised` records that `KeyError` escaping to the
caller (the preceding sends and disconnects have already happened). -/
def broadcastToComplaint (sendOk : Nat → Bool) (cid : String) (mgr : ConnManager) :
    BroadcastResult :=
  match alistLookup mgr.active_connections cid with
  | none => { delivered := [], raised := false, mgr := mgr }
  | some members =>
      let delivered := members.filter sendOk
      let failed := members.filter (fun s => !sendOk s)
      let mgr' := failed.foldl (fun m s => disconnectClient m cid s) mgr
      { delivered := delivered
        raised := (alistLookup mgr'.active_connections cid).isNone
        mgr := mgr' }

/-- `ConnectionManager.broadcast_vote_update` (websocket_handler.py lines
138-186). -/
def broadcast_vote_update (sendOk : Nat → Bool) (cid : String) (mgr : ConnManager) :
    BroadcastResult :=
  broadcastToComplaint sendOk cid mgr

/-- `ConnectionManager.broadcast_status_update` (websocket_handler.py lines
189-227); its registry mutations and final logging access are identical to
the vote broadcast. -/
def broadcast_status_update (sendOk : Nat → Bool) (cid : String) (mgr : ConnManager) :
    BroadcastResult :=
  broadcastToComplaint sendOk cid mgr

/-- The registry operations of claim C10: connect, disconnect, and the
cleanup performed by the two broadcasts. -/
inductive RegistryOp where
  | connect (cid : String) (sock : Nat)
  | disconnect (cid : String) (sock : Nat)
  | voteBroadcast (cid : String) (sendOk : Nat → Bool)
  | statusBroadcast (cid : String) (sendOk : Nat → Bool)

/-- Apply one registry operation. -/
def applyRegistryOp (mgr : ConnManager) : RegistryOp → ConnManager
  | .connect cid sock => connectClient mgr cid sock
  | .disconnect cid sock => disconnectClient mgr cid sock
  | .voteBroadcast cid sendOk => (broadcast_vote_update sendOk cid mgr).mgr
  | .statusBroadcast cid sendOk => (broadcast_status_update sendOk cid mgr).mgr

/-- Apply a sequence of registry operations. -/
def applyRegistryOps (ops : List RegistryOp) (mgr : ConnManager) : ConnManager :=
  ops.foldl applyRegistryOp mgr

-- ============================================================
-- Association-list lemmas
-- ============================================================

section AListLemmas

variable {α : Type}

theorem alistLookup_update_self {l : List (String × α)} {k : String} {v : α}
    (h : alistLookup l k = some v) (v' : α) :
    alistLookup (alistUpdate l k v') k = some v' := by
  induction l with
  | nil => simp [alistLookup] at h
  | cons p rest ih =>
      obtain ⟨k0, v0⟩ := p
      by_cases hk : k0 = k
      · simp [alistLookup, alistUpdate, hk]
      · simp only [alistLookup, alistUpdate, beq_iff_eq, if_neg hk] at h ⊢
        exact ih h

theorem alistLookup_update_ne {l : List (String × α)} {k k' : String} (v' : α)
    (h : k' ≠ k) :
    alistLookup (alistUpdate l k v') k' = alistLookup l k' := by
  induction l with
  | nil => simp [alistUpdate]
  | cons p rest ih =>
      obtain ⟨k0, v0⟩ := p
      by_cases hk : k0 = k
      · subst hk
        simp [alistLookup, alistUpdate, beq_iff_eq, Ne.symm h]
      · simp only [alistUpdate, beq_iff_eq, if_neg hk, alistLookup]
        by_cases hk' : k0 = k' <;> simp [hk', ih]

theorem alistLookup_set_self (l : List (String × α)) (k : String) (v : α) :
    alistLookup (alistSet l k v) k = some v := by
  induction l with
  | nil => simp [alistSet, alistLookup]
  | cons p rest ih =>
      obtain ⟨k0, v0⟩ := p
      by_cases hk : k0 = k
      · simp [alistSet, alistLookup, hk]
      · simp [alistSet, alistLookup, beq_iff_eq, hk, ih]

theorem alistLookup_set_ne (l : List (String × α)) {k k' : String} (v : α)
    (h : k' ≠ k) :
    alistLookup (alistSet l k v) k' = alistLookup l k' := by
  induction l with
  | nil => simp [alistSet, alistLookup, beq_iff_eq, Ne.symm h]
  | cons p rest ih =>
      obtain ⟨k0, v0⟩ := p
      by_cases hk : k0 = k
      · subst hk
        simp [alistSet, alistLookup, beq_iff_eq, Ne.symm h]
      · simp only [alistSet, beq_iff_eq, if_neg hk, alistLookup]
        by_cases hk' : k0 = k' <;> simp [hk', ih]

theorem alistLookup_remove_self (l : List (String × α)) (k : String) :
    alistLookup (alistRemove l k) k = none := by
  induction l with
  | nil => simp [alistRemove, alistLookup]
  | cons p rest ih =>
      obtain ⟨k0, v0⟩ := p
      by_cases hk : k0 = k
      · simpa [alistRemove, List.filter_cons, hk] using ih
      · simpa [alistRemove, List.filter_cons, beq_iff_eq, hk, alistLookup] using ih

theorem alistLookup_remove_ne (l : List (String × α)) {k k' : String}
    (h : k' ≠ k) :
    alistLookup (alistRemove l k) k' = alistLookup l k' := by
  induction l with
  | nil => simp [alistRemove]
  | cons p rest ih =>
      obtain ⟨k0, v0⟩ := p
      by_cases hk : k0 = k
      · subst hk
        simpa [alistRemove, List.filter_cons, alistLookup, beq_iff_eq, Ne.symm h] using ih
      · by_cases hk' : k0 = k'
        · subst hk'
          simp [alistRemove, List.filter_cons, alistLookup, beq_iff_eq, hk]
        · simpa [alistRemove, List.filter_cons, alistLookup, beq_iff_eq, hk, hk'] using ih

end AListLemmas

-- ============================================================
-- Priority-scorer claims (C5 and C6)
-- ============================================================

theorem priority_base_score_bounds (p : String) :
    100 ≤ priority_base_score p ∧ priority_base_score p ≤ 1500 := by
  unfold priority_base_score
  split_ifs <;> omega

theorem impact_bonus_bounds (i : String) :
    50 ≤ impact_bonus i ∧ impact_bonus i ≤ 300 := by
  unfold impact_bonus
  split_ifs <;> omega

/-- With a non-negative doubled vote influence, truncating the total toward
zero distributes over the integer part. -/
theorem tdiv_two_split {I v : Int} (hI : 0 ≤ I) (hv : 0 ≤ v) :
    Int.tdiv (2 * I + v) 2 = I + Int.tdiv v 2 := by
  rw [Int.tdiv_eq_ediv (by omega) (by omega), Int.tdiv_eq_ediv hv (by omega)]
  omega

/-- C5, counterexample: the code never clamps the score below at 0.  An
analysis whose `urgency_score` is -1000 (every other key absent, zero votes)
yields -650 from `calculate_priority_score`, while the spec's formula with
the total clamped to [0, 2000] yields 0. -/
theorem calculate_priority_score_not_lower_clamped :
    calculate_priority_score { priority := none, urgency_score := some (-1000), impact_level := none } 0 0 = -650 ∧
    spec_priority_score { priority := none, urgency_score := some (-1000), impact_level := none } 0 0 = 0 ∧
    calculate_priority_score { priority := none, urgency_score := some (-1000), impact_level := none } 0 0 ≠
      spec_priority_score { priority := none, urgency_score := some (-1000), impact_level := none } 0 0 := by
  refine ⟨rfl, rfl, by decide⟩

/-- C5 (amended): for non-negative vote counts and any analysis whose
`urgency_score` (defaulting to 50 when absent) is non-negative - in
particular every in-contract analysis, whose urgency lies in [0, 100] - the
code's score equals the spec formula (base + urgency + impact + truncated
vote influence, clamped to [0, 2000]) and lies in [0, 2000].  Without that
restriction only the upper cap at 2000 is applied (see the counterexample).
The function is a pure Lean function of its arguments, so determinism and
absence of side effects hold by construction. -/
theorem calculate_priority_score_spec (analysis : Analysis) (upvotes downvotes : Int)
    (hu : 0 ≤ upvotes) (hd : 0 ≤ downvotes)
    (hurg : 0 ≤ analysis.urgency_score.getD 50) :
    calculate_priority_score analysis upvotes downvotes =
      spec_priority_score analysis upvotes downvotes ∧
    0 ≤ calculate_priority_score analysis upvotes downvotes ∧
    calculate_priority_score analysis upvotes downvotes ≤ 2000 := by
  have hbase := priority_base_score_bounds (analysis.priority.getD ("medium"))
  have himp := impact_bonus_bounds (analysis.impact_level.getD ("individual"))
  simp only [calculate_priority_score, spec_priority_score]
  set base := priority_base_score (analysis.priority.getD ("medium")) with hbdef
  set urg := analysis.urgency_score.getD 50 with hudef
  set imp := impact_bonus (analysis.impact_level.getD ("individual")) with hidef
  set v := max 0 (10 * upvotes - 5 * downvotes) with hvdef
  have hI : 0 ≤ base + urg + imp := by omega
  have hv : 0 ≤ v := by omega
  rw [tdiv_two_split hI hv, Int.tdiv_eq_ediv hv (by omega)]
  omega

theorem calculate_priority_score_spec_witness :
    calculate_priority_score { priority := some "medium", urgency_score := some 50, impact_level := some "individual" } 81 0 =
      spec_priority_score { priority := some "medium", urgency_score := some 50, impact_level := some "individual" } 81 0 ∧
    0 ≤ calculate_priority_score { priority := some "medium", urgency_score := some 50, impact_level := some "individual" } 81 0 ∧
    calculate_priority_score { priority := some "medium", urgency_score := some 50, impact_level := some "individual" } 81 0 ≤ 2000 :=
  calculate_priority_score_spec _ 81 0 (by decide) (by decide) (by decide)

/-- The rank of the label of a score, as a threshold function of the
score. -/
theorem priority_label_rank_of_score (s : Int) :
    priority_label_rank (get_priority_label s) =
      if 1500 ≤ s then 3 else if 700 ≤ s then 2 else if 300 ≤ s then 1 else 0 := by
  unfold get_priority_label
  split_ifs <;> rfl

/-- C6: the label mapping of `get_priority_label` follows the documented
thresholds (≥1500 critical, ≥700 high, ≥300 medium, else low), and it is
monotone: a higher score never yields a lower-ranked label. -/
theorem get_priority_label_spec (s t : Int) :
    (1500 ≤ s → get_priority_label s = "critical") ∧
    (700 ≤ s → s < 1500 → get_priority_label s = "high") ∧
    (300 ≤ s → s < 700 → get_priority_label s = "medium") ∧
    (s < 300 → get_priority_label s = "low") ∧
    (s ≤ t → priority_label_rank (get_priority_label s) ≤
      priority_label_rank (get_priority_label t)) := by
  refine ⟨fun h => ?_, fun h1 h2 => ?_, fun h1 h2 => ?_, fun h => ?_, fun hst => ?_⟩
  · simp [get_priority_label, h]
  · simp [get_priority_label, h1, show ¬(1500 ≤ s) by omega]
  · simp [get_priority_label, h1, show ¬(1500 ≤ s) by omega, show ¬(700 ≤ s) by omega]
  · simp [get_priority_label, show ¬(1500 ≤ s) by omega, show ¬(700 ≤ s) by omega,
      show ¬(300 ≤ s) by omega]
  · rw [priority_label_rank_of_score, priority_label_rank_of_score]
    split_ifs <;> omega

-- ============================================================
-- Vote-table lemmas
-- ============================================================

theorem countP_nil (p : Vote → Bool) : countP p [] = 0 := rfl

theorem countP_cons (p : Vote → Bool) (v : Vote) (l : List Vote) :
    countP p (v :: l) = (if p v = true then 1 else 0) + countP p l := by
  simp only [countP, List.filter_cons]
  split <;> simp [Nat.add_comm]

theorem countP_append_single (p : Vote → Bool) (l : List Vote) (v : Vote) :
    countP p (l ++ [v]) = countP p l + (if p v = true then 1 else 0) := by
  simp only [countP, List.filter_append, List.length_append, List.filter_cons]
  split <;> simp

theorem countP_pos {p : Vote → Bool} {l : List Vote} {v : Vote}
    (hmem : v ∈ l) (hp : p v = true) : 1 ≤ countP p l := by
  have : v ∈ l.filter p := List.mem_filter.mpr ⟨hmem, hp⟩
  have := List.length_pos.mpr (List.ne_nil_of_mem this)
  simpa [countP] using this

theorem findVote_some_spec {l : List Vote} {cid : String} {sid : Nat} {ev : Vote}
    (h : findVote l cid sid = some ev) :
    ev ∈ l ∧ ev.complaint_id = cid ∧ ev.student_id = sid := by
  have hp := List.find?_some h
  simp only [voteMatches, Bool.and_eq_true, beq_iff_eq] at hp
  exact ⟨List.mem_of_find?_eq_some h, hp.1, hp.2⟩

theorem findVote_none_spec {l : List Vote} {cid : String} {sid : Nat}
    (h : findVote l cid sid = none) :
    ∀ v ∈ l, ¬(v.complaint_id = cid ∧ v.student_id = sid) := by
  intro v hv
  have := List.find?_eq_none.mp h v hv
  simp only [voteMatches, Bool.and_eq_true, beq_iff_eq] at this
  tauto

theorem countP_eraseVote (p : Vote → Bool) {l : List Vote} {cid : String}
    {sid : Nat} {ev : Vote} (h : findVote l cid sid = some ev) :
    countP p (eraseVote l cid sid) + (if p ev = true then 1 else 0) = countP p l := by
  induction l with
  | nil => simp [findVote] at h
  | cons v vs ih =>
      by_cases hm : voteMatches cid sid v = true
      · rw [findVote, List.find?_cons_of_pos _ hm] at h
        obtain rfl : v = ev := by injection h
        simp only [eraseVote, if_pos hm, countP_cons]
        omega
      · rw [findVote, List.find?_cons_of_neg _ hm] at h
        simp only [eraseVote, if_neg hm, countP_cons]
        have := ih h
        omega

theorem countP_setVoteType (p : Vote → Bool) {l : List Vote} {cid : String}
    {sid : Nat} {ev : Vote} (t : String) (h : findVote l cid sid = some ev) :
    countP p (setVoteType l cid sid t) + (if p ev = true then 1 else 0) =
      countP p l + (if p { ev with vote_type := t } = true then 1 else 0) := by
  induction l with
  | nil => simp [findVote] at h
  | cons v vs ih =>
      by_cases hm : voteMatches cid sid v = true
      · rw [findVote, List.find?_cons_of_pos _ hm] at h
        obtain rfl : v = ev := by injection h
        simp only [setVoteType, if_pos hm, countP_cons]
        omega
      · rw [findVote, List.find?_cons_of_neg _ hm] at h
        simp only [setVoteType, if_neg hm, countP_cons]
        have := ih h
        omega

theorem eraseVote_sublist (l : List Vote) (cid : String) (sid : Nat) :
    (eraseVote l cid sid).Sublist l := by
  induction l with
  | nil => simp [eraseVote]
  | cons v vs ih =>
      by_cases hm : voteMatches cid sid v = true
      · simpa [eraseVote, hm] using List.sublist_cons_self v vs
      · simpa [eraseVote, hm] using ih.cons₂ v

theorem setVoteType_mem {l : List Vote} {cid : String} {sid : Nat} {t : String}
    {b : Vote} (hb : b ∈ setVoteType l cid sid t) :
    ∃ b₀ ∈ l, b.complaint_id = b₀.complaint_id ∧ b.student_id = b₀.student_id ∧
      (b.vote_type = b₀.vote_type ∨ b.vote_type = t) := by
  induction l with
  | nil => simp [setVoteType] at hb
  | cons v vs ih =>
      by_cases hm : voteMatches cid sid v = true
      · simp only [setVoteType, if_pos hm, List.mem_cons] at hb
        rcases hb with rfl | hb
        · exact ⟨v, List.mem_cons_self v vs, rfl, rfl, Or.inr rfl⟩
        · exact ⟨b, List.mem_cons_of_mem v hb, rfl, rfl, Or.inl rfl⟩
      · simp only [setVoteType, if_neg hm, List.mem_cons] at hb
        rcases hb with rfl | hb
        · exact ⟨b, List.mem_cons_self b vs, rfl, rfl, Or.inl rfl⟩
        · obtain ⟨b₀, hb₀, h1, h2, h3⟩ := ih hb
          exact ⟨b₀, List.mem_cons_of_mem v hb₀, h1, h2, h3⟩

theorem voteKeyUnique_append {l : List Vote} {cid : String} {sid : Nat} (t : String)
    (hu : VoteKeyUnique l) (h : findVote l cid sid = none) :
    VoteKeyUnique (l ++ [{ complaint_id := cid, student_id := sid, vote_type := t }]) := by
  rw [VoteKeyUnique, List.pairwise_append]
  refine ⟨hu, List.pairwise_singleton _ _, ?_⟩
  intro a ha b hb
  simp only [List.mem_singleton] at hb
  subst hb
  intro hcon
  exact findVote_none_spec h a ha ⟨hcon.1, hcon.2⟩

theorem voteKeyUnique_erase {l : List Vote} {cid : String} {sid : Nat}
    (hu : VoteKeyUnique l) : VoteKeyUnique (eraseVote l cid sid) :=
  List.Pairwise.sublist (eraseVote_sublist l cid sid) hu

theorem voteKeyUnique_set {l : List Vote} {cid : String} {sid : Nat} {t : String}
    (hu : VoteKeyUnique l) : VoteKeyUnique (setVoteType l cid sid t) := by
  induction l with
  | nil => simpa [setVoteType] using hu
  | cons v vs ih =>
      rw [VoteKeyUnique, List.pairwise_cons] at hu
      by_cases hm : voteMatches cid sid v = true
      · rw [setVoteType, if_pos hm, VoteKeyUnique, List.pairwise_cons]
        exact ⟨fun b hb => hu.1 b hb, hu.2⟩
      · rw [setVoteType, if_neg hm, VoteKeyUnique, List.pairwise_cons]
        refine ⟨fun b hb => ?_, ih hu.2⟩
        obtain ⟨b₀, hb₀, h1, h2, _⟩ := setVoteType_mem hb
        intro hcon
        exact hu.1 b₀ hb₀ ⟨h1 ▸ hcon.1, h2 ▸ hcon.2⟩

theorem voteTypes_erase {l : List Vote} {cid : String} {sid : Nat}
    (h : ∀ v ∈ l, v.vote_type = "upvote" ∨ v.vote_type = "downvote") :
    ∀ v ∈ eraseVote l cid sid, v.vote_type = "upvote" ∨ v.vote_type = "downvote" :=
  fun v hv => h v ((eraseVote_sublist l cid sid).mem hv)

theorem voteTypes_set {l : List Vote} {cid : String} {sid : Nat} {t : String}
    (h : ∀ v ∈ l, v.vote_type = "upvote" ∨ v.vote_type = "downvote")
    (ht : t = "upvote" ∨ t = "downvote") :
    ∀ v ∈ setVoteType l cid sid t, v.vote_type = "upvote" ∨ v.vote_type = "downvote" := by
  intro v hv
  obtain ⟨b₀, hb₀, _, _, h3⟩ := setVoteType_mem hv
  rcases h3 with h3 | h3
  · exact h3 ▸ h b₀ hb₀
  · exact h3 ▸ ht

/-- When every vote row carries one of the two recognized types, the typed
counts of a complaint sum to its total vote count. -/
theorem typedVoteCount_sum {l : List Vote}
    (h : ∀ v ∈ l, v.vote_type = "upvote" ∨ v.vote_type = "downvote") (cid : String) :
    typedVoteCount l cid ("upvote") + typedVoteCount l cid ("downvote") =
      complaintVoteCount l cid := by
  induction l with
  | nil => rfl
  | cons v vs ih =>
      have hv := h v (List.mem_cons_self v vs)
      have ih' := ih (fun w hw => h w (List.mem_cons_of_mem v hw))
      simp only [typedVoteCount, complaintVoteCount, countP_cons] at ih' ⊢
      rcases hv with hv | hv <;>
        by_cases hc : v.complaint_id = cid <;>
          simp [hv, hc] <;> omega

theorem typedVoteCount_append_single (l : List Vote) (v : Vote) (cid t : String) :
    typedVoteCount (l ++ [v]) cid t =
      typedVoteCount l cid t +
        (if v.complaint_id = cid ∧ v.vote_type = t then 1 else 0) := by
  rw [typedVoteCount, countP_append_single, typedVoteCount]
  congr 1
  by_cases h1 : v.complaint_id = cid <;> by_cases h2 : v.vote_type = t <;> simp [h1, h2]

theorem typedVoteCount_erase {l : List Vote} {cid : String} {sid : Nat} {ev : Vote}
    (h : findVote l cid sid = some ev) (cid' t' : String) :
    typedVoteCount (eraseVote l cid sid) cid' t' +
        (if ev.complaint_id = cid' ∧ ev.vote_type = t' then 1 else 0) =
      typedVoteCount l cid' t' := by
  have hc := countP_eraseVote (fun v => v.complaint_id == cid' && v.vote_type == t') h
  rw [typedVoteCount, typedVoteCount]
  rw [← hc]
  congr 1
  by_cases h1 : ev.complaint_id = cid' <;> by_cases h2 : ev.vote_type = t' <;>
    simp [h1, h2]

theorem typedVoteCount_set {l : List Vote} {cid : String} {sid : Nat} {ev : Vote}
    (t : String) (h : findVote l cid sid = some ev) (cid' t' : String) :
    typedVoteCount (setVoteType l cid sid t) cid' t' +
        (if ev.complaint_id = cid' ∧ ev.vote_type = t' then 1 else 0) =
      typedVoteCount l cid' t' +
        (if ev.complaint_id = cid' ∧ t = t' then 1 else 0) := by
  have hc := countP_setVoteType (fun v => v.complaint_id == cid' && v.vote_type == t') t h
  simp only [typedVoteCount]
  by_cases h1 : ev.complaint_id = cid' <;> by_cases h2 : ev.vote_type = t' <;>
    by_cases h3 : t = t' <;> simp_all <;> omega

theorem typedVoteCount_mem_pos {l : List Vote} {ev : Vote} {cid t : String}
    (hmem : ev ∈ l) (h1 : ev.complaint_id = cid) (h2 : ev.vote_type = t) :
    1 ≤ typedVoteCount l cid t :=
  countP_pos hmem (by simp [h1, h2])

-- ============================================================
-- The vote-ledger invariant (claim C1)
-- ============================================================

/-- The ledger invariant: every stored complaint's counters equal the number
of vote rows of each type attached to it; no two vote rows share a
(complaint, voter) pair; every vote row carries a recognized type. -/
structure VoteLedgerInv (db : DBState) : Prop where
  counts : ∀ cid c, alistLookup db.complaints cid = some c →
    c.upvotes = (typedVoteCount db.votes cid ("upvote") : Int) ∧
    c.downvotes = (typedVoteCount db.votes cid ("downvote") : Int)
  unique : VoteKeyUnique db.votes
  typed : ∀ v ∈ db.votes, v.vote_type = "upvote" ∨ v.vote_type = "downvote"

/-- The mutation phase of the vote operation keeps the counters of the voted
complaint in sync with the vote table, does not touch the counts of any
other complaint, and preserves key-uniqueness and well-typedness of the vote
table. -/
theorem applyVoteMutation_inv {cid : String} {sid : Nat} {t : String}
    {c : Complaint} {votes : List Vote} {step : MutationStep}
    (hstep : applyVoteMutation cid sid t c votes = step)
    (hcup : c.upvotes = (typedVoteCount votes cid ("upvote") : Int))
    (hcdn : c.downvotes = (typedVoteCount votes cid ("downvote") : Int))
    (huniq : VoteKeyUnique votes)
    (htyped : ∀ v ∈ votes, v.vote_type = "upvote" ∨ v.vote_type = "downvote")
    (ht : t = "upvote" ∨ t = "downvote") :
    step.complaint.upvotes = (typedVoteCount step.votes cid ("upvote") : Int) ∧
    step.complaint.downvotes = (typedVoteCount step.votes cid ("downvote") : Int) ∧
    (∀ cid' t', cid' ≠ cid →
      typedVoteCount step.votes cid' t' = typedVoteCount votes cid' t') ∧
    VoteKeyUnique step.votes ∧
    (∀ v ∈ step.votes, v.vote_type = "upvote" ∨ v.vote_type = "downvote") := by
  subst hstep
  rcases hfv : findVote votes cid sid with _ | ev
  · -- CASE 1: create
    simp only [applyVoteMutation, hfv]
    have happ := fun t' =>
      typedVoteCount_append_single votes
        { complaint_id := cid, student_id := sid, vote_type := t } cid t'
    have happ' := fun cid' t' =>
      typedVoteCount_append_single votes
        { complaint_id := cid, student_id := sid, vote_type := t } cid' t'
    refine ⟨?_, ?_, ?_, voteKeyUnique_append t huniq hfv, ?_⟩
    · rcases ht with rfl | rfl <;>
        simp_all [typedVoteCount_append_single] <;> push_cast <;> omega
    · rcases ht with rfl | rfl <;>
        simp_all [typedVoteCount_append_single] <;> push_cast <;> omega
    · intro cid' t' hne
      rw [typedVoteCount_append_single]
      simp [Ne.symm hne]
    · intro v hv
      rcases List.mem_append.mp hv with hv | hv
      · exact htyped v hv
      · simp only [List.mem_singleton] at hv
        subst hv
        exact ht
  · -- a vote by this voter exists
    obtain ⟨hmem, hevc, _⟩ := findVote_some_spec hfv
    by_cases hsame : ev.vote_type = t
    · -- CASE 2: toggle off
      simp only [applyVoteMutation, hfv, if_pos hsame]
      have h1 := typedVoteCount_erase hfv cid ("upvote")
      have h2 := typedVoteCount_erase hfv cid ("downvote")
      have h3 := typedVoteCount_mem_pos hmem hevc hsame
      simp only [hevc, hsame] at h1 h2
      refine ⟨?_, ?_, ?_, voteKeyUnique_erase huniq, voteTypes_erase htyped⟩
      · rcases ht with rfl | rfl <;> simp_all <;> omega
      · rcases ht with rfl | rfl <;> simp_all <;> omega
      · intro cid' t' hne
        have h4 := typedVoteCount_erase hfv cid' t'
        rw [if_neg (by rw [hevc]; exact fun hcon => hne hcon.1.symm)] at h4
        omega
    · -- CASE 3: switch
      simp only [applyVoteMutation, hfv, if_neg hsame]
      have hevt := htyped ev hmem
      have h1 := typedVoteCount_set t hfv cid ("upvote")
      have h2 := typedVoteCount_set t hfv cid ("downvote")
      simp only [hevc] at h1 h2
      refine ⟨?_, ?_, ?_, voteKeyUnique_set huniq, voteTypes_set htyped ht⟩
      · rcases ht with rfl | rfl
        · have hevdn : ev.vote_type = "downvote" := by tauto
          simp only [hevdn] at h1 h2 ⊢
          simp_all <;> omega
        · have hevup : ev.vote_type = "upvote" := by tauto
          have h3 := typedVoteCount_mem_pos hmem hevc hevup
          simp only [hevup] at h1 h2 ⊢
          simp_all <;> omega
      · rcases ht with rfl | rfl
        · have hevdn : ev.vote_type = "downvote" := by tauto
          have h3 := typedVoteCount_mem_pos hmem hevc hevdn
          simp only [hevdn] at h1 h2 ⊢
          simp_all <;> omega
        · have hevup : ev.vote_type = "upvote" := by tauto
          simp only [hevup] at h1 h2 ⊢
          simp_all <;> omega
      · intro cid' t' hne
        have h4 := typedVoteCount_set t hfv cid' t'
        rw [if_neg (by rw [hevc]; exact fun hcon => hne hcon.1.symm),
          if_neg (by rw [hevc]; exact fun hcon => hne hcon.1.symm)] at h4
        omega

theorem get_priority_label_spec_witness :
    get_priority_label 1600 = "critical" ∧
    get_priority_label 805 = "high" ∧
    get_priority_label 400 = "medium" ∧
    get_priority_label 150 = "low" ∧
    priority_label_rank (get_priority_label 650) ≤ priority_label_rank (get_priority_label 805) :=
  ⟨(get_priority_label_spec 1600 1600).1 (by decide),
   (get_priority_label_spec 805 805).2.1 (by decide) (by decide),
   (get_priority_label_spec 400 400).2.2.1 (by decide) (by decide),
   (get_priority_label_spec 150 150).2.2.2.1 (by decide),
   (get_priority_label_spec 650 805).2.2.2.2 (by decide)⟩

/-- The priority-recalculation phase never touches the counters, the stored
analysis, the status, or the resolution timestamp. -/
theorem recalcPriority_fields (commitOk : Bool) (old_priority : String) (c : Complaint) :
    (recalcPriority commitOk old_priority c).2.upvotes = c.upvotes ∧
    (recalcPriority commitOk old_priority c).2.downvotes = c.downvotes ∧
    (recalcPriority commitOk old_priority c).2.llm_analysis = c.llm_analysis ∧
    (recalcPriority commitOk old_priority c).2.status = c.status ∧
    (recalcPriority commitOk old_priority c).2.resolved_at = c.resolved_at := by
  unfold recalcPriority
  rcases ha : c.llm_analysis with _ | a <;> simp [ha] <;> split_ifs <;> simp [ha]

/-- The vote operation on a missing complaint returns the not-found failure
dict and leaves the database untouched, whatever the commit outcomes. -/
theorem vote_notfound_spec (c1ok c2ok : Bool) (cid : String) (sid : Nat)
    (t : String) {db : DBState} (hl : alistLookup db.complaints cid = none) :
    vote_on_complaint_g c1ok c2ok cid sid t db = (.err ("Complaint not found"), db) := by
  simp [vote_on_complaint_g, hl]

/-- Behaviour of the vote operation when the complaint exists and the
mutation commit succeeds: the returned dict carries the message, action and
the counters of the committed complaint row, and the committed state has the
mutated vote table, the (possibly re-prioritized) complaint row, and an
untouched audit trail. -/
theorem vote_ok_spec (c2ok : Bool) (cid : String) (sid : Nat) (t : String)
    {db : DBState} {c : Complaint} (hl : alistLookup db.complaints cid = some c) :
    ∃ (pu : Bool) (cfin : Complaint),
      (vote_on_complaint_g true c2ok cid sid t db).1 =
        .ok (applyVoteMutation cid sid t c db.votes).message
            (applyVoteMutation cid sid t c db.votes).action
            cfin.upvotes cfin.downvotes pu
            (if pu then some c.priority else none)
            (if pu then some cfin.priority else none) ∧
      (vote_on_complaint_g true c2ok cid sid t db).2 =
        { complaints :=
            if pu then
              alistUpdate (alistUpdate db.complaints cid
                (applyVoteMutation cid sid t c db.votes).complaint) cid cfin
            else alistUpdate db.complaints cid
              (applyVoteMutation cid sid t c db.votes).complaint
          votes := (applyVoteMutation cid sid t c db.votes).votes
          status_updates := db.status_updates } ∧
      cfin.upvotes = (applyVoteMutation cid sid t c db.votes).complaint.upvotes ∧
      cfin.downvotes = (applyVoteMutation cid sid t c db.votes).complaint.downvotes := by
  refine ⟨(recalcPriority c2ok c.priority (applyVoteMutation cid sid t c db.votes).complaint).1,
          (recalcPriority c2ok c.priority (applyVoteMutation cid sid t c db.votes).complaint).2,
          ?_, ?_, ?_, ?_⟩
  · simp [vote_on_complaint_g, hl]
  · rcases hpu : (recalcPriority c2ok c.priority
        (applyVoteMutation cid sid t c db.votes).complaint).1 with _ | _ <;>
      simp [vote_on_complaint_g, hl, hpu]
  · exact (recalcPriority_fields c2ok c.priority
      (applyVoteMutation cid sid t c db.votes).complaint).1
  · exact (recalcPriority_fields c2ok c.priority
      (applyVoteMutation cid sid t c db.votes).complaint).2.1

/-- Searching an extended vote table: when the prefix has no match, the
search continues in the suffix. -/
theorem findVote_append_none {l : List Vote} {cid : String} {sid : Nat}
    (h : findVote l cid sid = none) (l' : List Vote) :
    findVote (l ++ l') cid sid = findVote l' cid sid := by
  induction l with
  | nil => rfl
  | cons v vs ih =>
      by_cases hm : voteMatches cid sid v = true
      · rw [findVote, List.find?_cons_of_pos _ hm] at h
        cases h
      · rw [findVote, List.find?_cons_of_neg _ hm] at h
        rw [List.cons_append, findVote, List.find?_cons_of_neg _ hm]
        exact ih h

/-- Combined behaviour of a successful vote: the returned dict reports one of
the mutation actions together with exactly the counters stored on the
committed complaint row, and the committed vote table is the mutated one. -/
theorem vote_ok_full (c2ok : Bool) (cid : String) (sid : Nat) (t : String)
    {db : DBState} {c : Complaint} (hl : alistLookup db.complaints cid = some c) :
    ∃ (pu : Bool) (op np : Option String) (cfin : Complaint),
      (vote_on_complaint_g true c2ok cid sid t db).1 =
        .ok (applyVoteMutation cid sid t c db.votes).message
            (applyVoteMutation cid sid t c db.votes).action
            cfin.upvotes cfin.downvotes pu op np ∧
      alistLookup (vote_on_complaint_g true c2ok cid sid t db).2.complaints cid =
        some cfin ∧
      cfin.upvotes = (applyVoteMutation cid sid t c db.votes).complaint.upvotes ∧
      cfin.downvotes = (applyVoteMutation cid sid t c db.votes).complaint.downvotes ∧
      (vote_on_complaint_g true c2ok cid sid t db).2.votes =
        (applyVoteMutation cid sid t c db.votes).votes ∧
      (vote_on_complaint_g true c2ok cid sid t db).2.status_updates =
        db.status_updates := by
  obtain ⟨pu, cfin, hres, hstate, hup, hdn⟩ := vote_ok_spec c2ok cid sid t hl
  have hlook1 : alistLookup (alistUpdate db.complaints cid
      (applyVoteMutation cid sid t c db.votes).complaint) cid =
      some (applyVoteMutation cid sid t c db.votes).complaint :=
    alistLookup_update_self hl _
  rcases pu with _ | _
  · refine ⟨false, none, none, (applyVoteMutation cid sid t c db.votes).complaint,
      ?_, ?_, rfl, rfl, ?_, ?_⟩
    · rw [hres, hup, hdn]
      simp
    · rw [hstate]
      simpa using hlook1
    · rw [hstate]
    · rw [hstate]
  · refine ⟨true, some c.priority, some cfin.priority, cfin, ?_, ?_, hup, hdn, ?_, ?_⟩
    · rw [hres]
      simp
    · rw [hstate]
      simpa using alistLookup_update_self hlook1 cfin
    · rw [hstate]
    · rw [hstate]

/-- The vote operation preserves the ledger invariant, for any outcome of
the two commit sites, whenever the requested vote type is one of the two
recognized values (which the REST boundary guarantees, see
`validVoteTypePattern`). -/
theorem vote_preserves_inv (c1ok c2ok : Bool) (cid : String) (sid : Nat)
    (t : String) {db : DBState} (hinv : VoteLedgerInv db)
    (ht : t = "upvote" ∨ t = "downvote") :
    VoteLedgerInv (vote_on_complaint_g c1ok c2ok cid sid t db).2 := by
  rcases hl : alistLookup db.complaints cid with _ | c
  · rw [vote_notfound_spec c1ok c2ok cid sid t hl]
    exact hinv
  · rcases c1ok with _ | _
    · simpa [vote_on_complaint_g, hl] using hinv
    have hcnt := hinv.counts cid c hl
    have hmut := @applyVoteMutation_inv cid sid t c db.votes _ rfl hcnt.1 hcnt.2
      hinv.unique hinv.typed ht
    obtain ⟨pu, cfin, _, hstate, hup, hdn⟩ := vote_ok_spec c2ok cid sid t hl
    rw [hstate]
    have hlook1 : alistLookup (alistUpdate db.complaints cid
        (applyVoteMutation cid sid t c db.votes).complaint) cid =
        some (applyVoteMutation cid sid t c db.votes).complaint :=
      alistLookup_update_self hl _
    refine { counts := ?_, unique := hmut.2.2.2.1, typed := hmut.2.2.2.2 }
    intro cid' c' hc'
    by_cases hne : cid' = cid
    · subst hne
      rcases pu with _ | _ <;> simp only [if_true, if_false, Bool.false_eq_true] at hc'
      · rw [hlook1] at hc'
        injection hc' with hc'
        subst hc'
        exact ⟨hmut.1, hmut.2.1⟩
      · rw [alistLookup_update_self hlook1 cfin] at hc'
        injection hc' with hc'
        subst hc'
        rw [hup, hdn]
        exact ⟨hmut.1, hmut.2.1⟩
    · have hcold : alistLookup db.complaints cid' = some c' := by
        rcases pu with _ | _ <;>
          simp only [if_true, if_false, Bool.false_eq_true] at hc'
        · rwa [alistLookup_update_ne _ hne] at hc'
        · rwa [alistLookup_update_ne _ hne, alistLookup_update_ne _ hne] at hc'
      have hold := hinv.counts cid' c' hcold
      have hsame := hmut.2.2.1 cid'
      exact ⟨by rw [hold.1, hsame ("upvote") hne],
             by rw [hold.2, hsame ("downvote") hne]⟩

/-- The fresh single-complaint database satisfies the ledger invariant. -/
theorem initialDB_inv (cid : String) (priority : String) (an : Option Analysis) :
    VoteLedgerInv (initialDB cid priority an) := by
  refine { counts := ?_, unique := List.Pairwise.nil, typed := by simp [initialDB] }
  intro cid' c' hc'
  simp only [initialDB, create_complaint, alistLookup] at hc'
  split at hc'
  · injection hc' with hc'
    subst hc'
    exact ⟨rfl, rfl⟩
  · simp [alistLookup] at hc'

/-- Iterating the vote operation preserves the ledger invariant. -/
theorem applyVotes_preserves_inv (ops : List VoteOp) :
    ∀ db : DBState, VoteLedgerInv db →
      (∀ o ∈ ops, o.vote_type = "upvote" ∨ o.vote_type = "downvote") →
      VoteLedgerInv (applyVotes ops db) := by
  induction ops with
  | nil =>
      intro db h _
      simpa [applyVotes] using h
  | cons o rest ih =>
      intro db h hops
      have hstep := vote_preserves_inv true true o.complaint_id o.student_id
        o.vote_type h (hops o (List.mem_cons_self o rest))
      have htail := ih _ hstep (fun o' ho' => hops o' (List.mem_cons_of_mem o ho'))
      simpa [applyVotes, vote_on_complaint] using htail

/-- C1: starting from a freshly created complaint with zero counts and no
votes, after any sequence of vote operations with recognized vote types the
stored counters of every complaint are non-negative and equal to the number
of vote rows of that type attached to it, their sum equals the total number
of vote rows of the complaint, and at most one vote row exists per
(complaint, voter) pair. -/
theorem vote_ledger_invariant (cid0 priority : String) (an : Option Analysis)
    (ops : List VoteOp)
    (hops : ∀ o ∈ ops, o.vote_type = "upvote" ∨ o.vote_type = "downvote") :
    (∀ cid c, alistLookup (applyVotes ops (initialDB cid0 priority an)).complaints cid = some c →
      0 ≤ c.upvotes ∧ 0 ≤ c.downvotes ∧
      c.upvotes = (typedVoteCount (applyVotes ops (initialDB cid0 priority an)).votes cid ("upvote") : Int) ∧
      c.downvotes = (typedVoteCount (applyVotes ops (initialDB cid0 priority an)).votes cid ("downvote") : Int) ∧
      c.upvotes + c.downvotes = (complaintVoteCount (applyVotes ops (initialDB cid0 priority an)).votes cid : Int)) ∧
    VoteKeyUnique (applyVotes ops (initialDB cid0 priority an)).votes := by
  suffices h : VoteLedgerInv (applyVotes ops (initialDB cid0 priority an)) by
    refine ⟨fun cid c hc => ?_, h.unique⟩
    have hcc := h.counts cid c hc
    have hsum := typedVoteCount_sum h.typed cid
    refine ⟨by rw [hcc.1]; positivity, by rw [hcc.2]; positivity, hcc.1, hcc.2, ?_⟩
    rw [hcc.1, hcc.2]
    push_cast
    omega
  exact applyVotes_preserves_inv ops _ (initialDB_inv cid0 priority an) hops

/-- The single operation of the C1 witness: one upvote on the fresh
complaint. -/
def witnessOps : List VoteOp :=
  [{ complaint_id := "c1", student_id := 1, vote_type := "upvote" }]

/-- The complaint row after the C1 witness run: one upvote. -/
def witnessComplaint : Complaint :=
  { upvotes := 1, downvotes := 0, status := "raised", priority := "medium"
    llm_analysis := none, llm_priority_score := 0, resolved_at := none }

theorem vote_ledger_invariant_witness :
    (0 ≤ witnessComplaint.upvotes ∧ 0 ≤ witnessComplaint.downvotes ∧
      witnessComplaint.upvotes =
        (typedVoteCount (applyVotes witnessOps (initialDB ("c1") ("medium") none)).votes ("c1") ("upvote") : Int) ∧
      witnessComplaint.downvotes =
        (typedVoteCount (applyVotes witnessOps (initialDB ("c1") ("medium") none)).votes ("c1") ("downvote") : Int) ∧
      witnessComplaint.upvotes + witnessComplaint.downvotes =
        (complaintVoteCount (applyVotes witnessOps (initialDB ("c1") ("medium") none)).votes ("c1") : Int)) ∧
    VoteKeyUnique (applyVotes witnessOps (initialDB ("c1") ("medium") none)).votes :=
  ⟨(vote_ledger_invariant ("c1") ("medium") none witnessOps (by decide)).1
      ("c1") witnessComplaint (by decide),
   (vote_ledger_invariant ("c1") ("medium") none witnessOps (by decide)).2⟩

/-- C2: for an existing complaint with non-negative counters and a voter
with no existing vote on it, voting twice with the same type first creates
the vote (action "created") and then deletes it (action "deleted"), and the
stored counters return exactly to their pre-vote values. -/
theorem vote_toggle_netzero (cid : String) (sid : Nat) (t : String)
    {db : DBState} {c : Complaint} (hl : alistLookup db.complaints cid = some c)
    (hnv : findVote db.votes cid sid = none)
    (hup0 : 0 ≤ c.upvotes) (hdn0 : 0 ≤ c.downvotes) :
    (∃ m u d pu op np,
      (vote_on_complaint cid sid t db).1 = .ok m ("created") u d pu op np) ∧
    (∃ m u d pu op np,
      (vote_on_complaint cid sid t (vote_on_complaint cid sid t db).2).1 =
        .ok m ("deleted") u d pu op np) ∧
    (∃ c2, alistLookup
        (vote_on_complaint cid sid t (vote_on_complaint cid sid t db).2).2.complaints cid =
        some c2 ∧
      c2.upvotes = c.upvotes ∧ c2.downvotes = c.downvotes) := by
  simp only [vote_on_complaint]
  obtain ⟨pu1, op1, np1, cfin1, hres1, hlook1, hu1, hd1, hv1, _⟩ :=
    vote_ok_full true cid sid t hl
  have hstep1 :
      applyVoteMutation cid sid t c db.votes =
        { complaint := if t = "upvote" then { c with upvotes := c.upvotes + 1 }
                       else { c with downvotes := c.downvotes + 1 }
          votes := db.votes ++ [{ complaint_id := cid, student_id := sid, vote_type := t }]
          action := "created"
          message := pyCapitalize t ++ " added" } := by
    simp [applyVoteMutation, hnv]
  refine ⟨⟨_, _, _, _, _, _, by rw [hres1, hstep1]⟩, ?_, ?_⟩
  all_goals
    obtain ⟨pu2, op2, np2, cfin2, hres2, hlook2, hu2, hd2, hv2, _⟩ :=
      vote_ok_full true cid sid t hlook1
    have hfv2 : findVote (vote_on_complaint_g true true cid sid t db).2.votes cid sid =
        some { complaint_id := cid, student_id := sid, vote_type := t } := by
      rw [hv1, hstep1]
      rw [findVote_append_none hnv]
      simp [findVote, voteMatches]
    have hstep2 :
        applyVoteMutation cid sid t cfin1 (vote_on_complaint_g true true cid sid t db).2.votes =
          { complaint := if t = "upvote" then { cfin1 with upvotes := max 0 (cfin1.upvotes - 1) }
                         else { cfin1 with downvotes := max 0 (cfin1.downvotes - 1) }
            votes := eraseVote (vote_on_complaint_g true true cid sid t db).2.votes cid sid
            action := "deleted"
            message := pyCapitalize t ++ " removed" } := by
      simp [applyVoteMutation, hfv2]
  · exact ⟨_, _, _, _, _, _, by rw [hres2, hstep2]⟩
  · refine ⟨cfin2, hlook2, ?_, ?_⟩
    · by_cases htup : t = "upvote"
      · have hu1' : cfin1.upvotes = c.upvotes + 1 := by
          rw [hu1, hstep1]
          simp [htup]
        have hgoal : (applyVoteMutation cid sid t cfin1
            (vote_on_complaint_g true true cid sid t db).2.votes).complaint.upvotes =
            max 0 (cfin1.upvotes - 1) := by
          rw [hstep2]
          simp [htup]
        rw [hu2, hgoal]
        omega
      · have hu1' : cfin1.upvotes = c.upvotes := by
          rw [hu1, hstep1]
          simp [htup]
        have hgoal : (applyVoteMutation cid sid t cfin1
            (vote_on_complaint_g true true cid sid t db).2.votes).complaint.upvotes =
            cfin1.upvotes := by
          rw [hstep2]
          simp [htup]
        rw [hu2, hgoal, hu1']
    · by_cases htup : t = "upvote"
      · have hd1' : cfin1.downvotes = c.downvotes := by
          rw [hd1, hstep1]
          simp [htup]
        have hgoal : (applyVoteMutation cid sid t cfin1
            (vote_on_complaint_g true true cid sid t db).2.votes).complaint.downvotes =
            cfin1.downvotes := by
          rw [hstep2]
          simp [htup]
        rw [hd2, hgoal, hd1']
      · have hd1' : cfin1.downvotes = c.downvotes + 1 := by
          rw [hd1, hstep1]
          simp [htup]
        have hgoal : (applyVoteMutation cid sid t cfin1
            (vote_on_complaint_g true true cid sid t db).2.votes).complaint.downvotes =
            max 0 (cfin1.downvotes - 1) := by
          rw [hstep2]
          simp [htup]
        rw [hd2, hgoal]
        omega

theorem vote_toggle_netzero_witness :
    (∃ m u d pu op np,
      (vote_on_complaint ("c1") 1 ("upvote") (initialDB ("c1") ("medium") none)).1 =
        .ok m ("created") u d pu op np) ∧
    (∃ m u d pu op np,
      (vote_on_complaint ("c1") 1 ("upvote")
        (vote_on_complaint ("c1") 1 ("upvote") (initialDB ("c1") ("medium") none)).2).1 =
        .ok m ("deleted") u d pu op np) ∧
    (∃ c2, alistLookup
        (vote_on_complaint ("c1") 1 ("upvote")
          (vote_on_complaint ("c1") 1 ("upvote") (initialDB ("c1") ("medium") none)).2).2.complaints ("c1") =
        some c2 ∧
      c2.upvotes = (create_complaint ("medium") none).upvotes ∧
      c2.downvotes = (create_complaint ("medium") none).downvotes) :=
  vote_toggle_netzero ("c1") 1 ("upvote") (by rfl) (by rfl) (by decide) (by decide)

/-- Every failing run of the vote operation leaves the committed database
exactly as it was: the not-found path mutates nothing and the commit-failure
path is rolled back by the outer exception handler. -/
theorem vote_err_state (c1ok c2ok : Bool) (cid : String) (sid : Nat) (t : String)
    (db : DBState) (m : String)
    (h : (vote_on_complaint_g c1ok c2ok cid sid t db).1 = .err m) :
    (vote_on_complaint_g c1ok c2ok cid sid t db).2 = db := by
  rcases hl : alistLookup db.complaints cid with _ | c
  · rw [vote_notfound_spec c1ok c2ok cid sid t hl]
  · rcases c1ok with _ | _
    · simp [vote_on_complaint_g, hl]
    · obtain ⟨pu, cfin, hres, _, _, _⟩ := vote_ok_spec c2ok cid sid t hl
      rw [hres] at h
      cases h

/-- The three mutation cases report exactly the three documented actions. -/
theorem applyVoteMutation_action_cases (cid : String) (sid : Nat) (t : String)
    (c : Complaint) (votes : List Vote) :
    (applyVoteMutation cid sid t c votes).action = "created" ∨
    (applyVoteMutation cid sid t c votes).action = "updated" ∨
    (applyVoteMutation cid sid t c votes).action = "deleted" := by
  unfold applyVoteMutation
  rcases findVote votes cid sid with _ | ev
  · simp
  · by_cases h : ev.vote_type = t <;> simp [h]

/-- C3: a `vote_type` outside {"upvote", "downvote"} is rejected by the
pydantic pattern of `VoteRequest` before the handler body runs: the request
fails with the validation error and neither the vote table nor any complaint
counter is touched. -/
theorem invalid_vote_type_rejected (cid : String) (sid : Nat) (t : String)
    (db : DBState) (h1 : t ≠ "upvote") (h2 : t ≠ "downvote") :
    api_vote cid sid t db = (.validationError, db) := by
  simp [api_vote, validVoteTypePattern, h1, h2]

theorem invalid_vote_type_rejected_witness :
    api_vote ("c1") 1 ("sideways") (initialDB ("c1") ("medium") none) =
      (.validationError, initialDB ("c1") ("medium") none) :=
  invalid_vote_type_rejected ("c1") 1 ("sideways") (initialDB ("c1") ("medium") none)
    (by decide) (by decide)

/-- C4: voting on a missing complaint fails with the not-found error, and
every failing vote or status mutation leaves the whole database (complaint
rows, counters, vote table, audit trail) unchanged. -/
theorem failed_mutations_leave_store_unchanged (c1ok c2ok : Bool) (cid : String)
    (sid : Nat) (t : String) (db : DBState) :
    (alistLookup db.complaints cid = none →
      vote_on_complaint_g c1ok c2ok cid sid t db = (.err ("Complaint not found"), db)) ∧
    (∀ m, (vote_on_complaint_g c1ok c2ok cid sid t db).1 = .err m →
      (vote_on_complaint_g c1ok c2ok cid sid t db).2 = db) ∧
    (∀ new_status updated_by reason now e,
      (update_complaint_status cid new_status updated_by reason now db).1 = .error e →
      (update_complaint_status cid new_status updated_by reason now db).2 = db) := by
  refine ⟨fun hl => vote_notfound_spec c1ok c2ok cid sid t hl,
          fun m h => vote_err_state c1ok c2ok cid sid t db m h,
          fun ns ub rsn now e h => ?_⟩
  rcases hl : alistLookup db.complaints cid with _ | c
  · simp [update_complaint_status, hl]
  · simp [update_complaint_status, hl] at h

theorem failed_mutations_leave_store_unchanged_witness :
    (vote_on_complaint_g true true ("nope") 1 ("upvote") (initialDB ("c1") ("medium") none) =
      (.err ("Complaint not found"), initialDB ("c1") ("medium") none)) ∧
    ((vote_on_complaint_g true true ("nope") 1 ("upvote") (initialDB ("c1") ("medium") none)).2 =
      initialDB ("c1") ("medium") none) ∧
    ((update_complaint_status ("nope") ("closed") 1 none 0 (initialDB ("c1") ("medium") none)).2 =
      initialDB ("c1") ("medium") none) :=
  ⟨(failed_mutations_leave_store_unchanged true true ("nope") 1 ("upvote")
      (initialDB ("c1") ("medium") none)).1 (by rfl),
   (failed_mutations_leave_store_unchanged true true ("nope") 1 ("upvote")
      (initialDB ("c1") ("medium") none)).2.1 ("Complaint not found") (by rfl),
   (failed_mutations_leave_store_unchanged true true ("nope") 1 ("upvote")
      (initialDB ("c1") ("medium") none)).2.2 ("closed") 1 none 0
      ("Complaint nope not found") (by rfl)⟩

/-- C9: the vote operation is a total function of its inputs and commit
outcomes (it never raises to its caller): every failure returns the
`success: False` dict with a `None` action and leaves the database
unchanged, and every success reports one of the actions "created",
"updated", "deleted" together with exactly the counters stored on the
committed complaint row. -/
theorem vote_result_contract (c1ok c2ok : Bool) (cid : String) (sid : Nat)
    (t : String) (db : DBState) :
    (∀ m, (vote_on_complaint_g c1ok c2ok cid sid t db).1 = .err m →
      (vote_on_complaint_g c1ok c2ok cid sid t db).2 = db) ∧
    (∀ m a u d pu op np,
      (vote_on_complaint_g c1ok c2ok cid sid t db).1 = .ok m a u d pu op np →
      (a = "created" ∨ a = "updated" ∨ a = "deleted") ∧
      ∃ cfin, alistLookup (vote_on_complaint_g c1ok c2ok cid sid t db).2.complaints cid =
          some cfin ∧ cfin.upvotes = u ∧ cfin.downvotes = d) := by
  refine ⟨fun m h => vote_err_state c1ok c2ok cid sid t db m h,
          fun m a u d pu op np h => ?_⟩
  rcases hl : alistLookup db.complaints cid with _ | c
  · rw [vote_notfound_spec c1ok c2ok cid sid t hl] at h
    cases h
  · rcases c1ok with _ | _
    · simp [vote_on_complaint_g, hl] at h
    · obtain ⟨pu', op', np', cfin, hres, hlook, _, _, _, _⟩ :=
        vote_ok_full c2ok cid sid t hl
      rw [hres] at h
      injection h with hm ha hu hd _ _ _
      subst ha
      subst hu
      subst hd
      exact ⟨applyVoteMutation_action_cases cid sid t c db.votes,
        cfin, hlook, rfl, rfl⟩

theorem vote_result_contract_witness :
    (("created" : String) = "created" ∨ ("created" : String) = "updated" ∨
      ("created" : String) = "deleted") ∧
    ∃ cfin, alistLookup
        (vote_on_complaint_g true true ("c1") 1 ("upvote")
          (initialDB ("c1") ("medium") none)).2.complaints ("c1") = some cfin ∧
      cfin.upvotes = 1 ∧ cfin.downvotes = 0 :=
  (vote_result_contract true true ("c1") 1 ("upvote")
      (initialDB ("c1") ("medium") none)).2
    ("Upvote added") ("created") 1 0 false none none (by rfl)

/-- C7: updating the status of an existing complaint succeeds, stores the
new status, sets the resolution timestamp exactly when the new status is
"closed" (and otherwise leaves it untouched, hence unset when previously
unset), and appends exactly one audit record carrying the old and the new
status - including when the new status equals the current one. -/
theorem update_status_spec (cid new_status : String) (updated_by : Nat)
    (reason : Option String) (now : Nat) {db : DBState} {c : Complaint}
    (hl : alistLookup db.complaints cid = some c) :
    (update_complaint_status cid new_status updated_by reason now db).1 = .ok () ∧
    (∃ c', alistLookup
        (update_complaint_status cid new_status updated_by reason now db).2.complaints cid =
        some c' ∧
      c'.status = new_status ∧
      (new_status = "closed" → c'.resolved_at = some now) ∧
      (new_status ≠ "closed" → c'.resolved_at = c.resolved_at)) ∧
    (update_complaint_status cid new_status updated_by reason now db).2.status_updates =
      db.status_updates ++
        [{ complaint_id := cid, old_status := c.status, new_status := new_status
           updated_by := updated_by, reason := reason }] := by
  simp only [update_complaint_status, hl]
  refine ⟨by trivial, ⟨_, alistLookup_update_self hl _, rfl, ?_, ?_⟩, by trivial⟩
  · intro h
    simp [h]
  · intro h
    simp [h]

theorem update_status_spec_witness :
    ((update_complaint_status ("c1") ("closed") 5 none 42
        (initialDB ("c1") ("medium") none)).1 = .ok () ∧
     (∃ c', alistLookup
         (update_complaint_status ("c1") ("closed") 5 none 42
           (initialDB ("c1") ("medium") none)).2.complaints ("c1") = some c' ∧
       c'.status = "closed" ∧
       (("closed" : String) = "closed" → c'.resolved_at = some 42) ∧
       (("closed" : String) ≠ "closed" → c'.resolved_at = (create_complaint ("medium") none).resolved_at)) ∧
     (update_complaint_status ("c1") ("closed") 5 none 42
        (initialDB ("c1") ("medium") none)).2.status_updates =
       (initialDB ("c1") ("medium") none).status_updates ++
         [{ complaint_id := "c1", old_status := (create_complaint ("medium") none).status
            new_status := "closed", updated_by := 5, reason := none }]) :=
  update_status_spec ("c1") ("closed") 5 none 42 (by rfl)

-- ============================================================
-- Registry lemmas (claims C8 and C10)
-- ============================================================

/-- Shape of a single disconnect when the complaint's entry holds `cur`. -/
theorem disconnectClient_of_lookup {mgr : ConnManager} {cid : String}
    {cur : List Nat} (h : alistLookup mgr.active_connections cid = some cur)
    (sock : Nat) :
    disconnectClient mgr cid sock =
      { active_connections :=
          if cur.erase sock = [] then alistRemove mgr.active_connections cid
          else alistUpdate mgr.active_connections cid (cur.erase sock)
        total_connections := mgr.total_connections
        total_disconnections := mgr.total_disconnections + 1 } := by
  simp [disconnectClient, h]

/-- Iterating `disconnect` over a duplicate-free sub-collection `D` of the
entry `cur`: the entry keeps exactly the members outside `D` (and is deleted
when none remain), each processed channel counts as one disconnection, and
no other complaint's entry is touched. -/
theorem fold_disconnect_spec (cid : String) :
    ∀ (D : List Nat) (mgr : ConnManager) (cur : List Nat),
      alistLookup mgr.active_connections cid = some cur →
      cur ≠ [] → cur.Nodup → D.Nodup → (∀ x ∈ D, x ∈ cur) →
      (alistLookup (D.foldl (fun m s => disconnectClient m cid s) mgr).active_connections cid =
        (if cur.filter (fun x => !D.contains x) = [] then none
         else some (cur.filter (fun x => !D.contains x)))) ∧
      (D.foldl (fun m s => disconnectClient m cid s) mgr).total_disconnections =
        mgr.total_disconnections + D.length ∧
      (D.foldl (fun m s => disconnectClient m cid s) mgr).total_connections =
        mgr.total_connections ∧
      (∀ cid', cid' ≠ cid →
        alistLookup (D.foldl (fun m s => disconnectClient m cid s) mgr).active_connections cid' =
          alistLookup mgr.active_connections cid') := by
  intro D
  induction D with
  | nil =>
      intro mgr cur hcur hne _ _ _
      simp [List.filter_true, hcur, hne]
  | cons d D' ih =>
      intro mgr cur hcur hne hndcur hndD hsub
      have hd : d ∈ cur := hsub d (List.mem_cons_self d D')
      have hDd : d ∉ D' := by
        rw [List.nodup_cons] at hndD
        exact hndD.1
      rw [List.foldl_cons, disconnectClient_of_lookup hcur d]
      by_cases hnil : cur.erase d = []
      · -- the entry became empty and was deleted; D' must then be empty
        have hlen : cur.length = 1 := by
          have := List.length_erase_of_mem hd
          rw [hnil] at this
          simp at this
          have := List.length_pos.mpr hne
          omega
        have hcurd : cur = [d] := by
          obtain ⟨a, ha⟩ := List.length_eq_one.mp hlen
          rw [ha] at hd ⊢
          have hda : d = a := by simpa using hd
          rw [hda]
        subst hcurd
        have hD' : D' = [] := by
          rcases D' with _ | ⟨e, D''⟩
          · rfl
          · exfalso
            have he := hsub e (List.mem_cons_of_mem d (List.mem_cons_self e D''))
            simp at he
            subst he
            exact hDd (List.mem_cons_self e D'')
        subst hD'
        rw [if_pos hnil]
        refine ⟨?_, by simp, by simp, fun cid' hne' => ?_⟩
        · simp only [List.foldl_nil]
          rw [alistLookup_remove_self]
          have : List.filter (fun x => !([d].contains x)) [d] = [] := by
            simp [List.contains_cons]
          rw [this, if_pos rfl]
        · simp only [List.foldl_nil]
          exact alistLookup_remove_ne _ hne'
      · -- the entry survives with cur.erase d
        rw [if_neg hnil]
        set mgr1 : ConnManager :=
          { active_connections := alistUpdate mgr.active_connections cid (cur.erase d)
            total_connections := mgr.total_connections
            total_disconnections := mgr.total_disconnections + 1 } with hmgr1
        have hcur1 : alistLookup mgr1.active_connections cid = some (cur.erase d) :=
          alistLookup_update_self hcur _
        have hsub' : ∀ x ∈ D', x ∈ cur.erase d := by
          intro x hx
          have hxd : x ≠ d := fun hxd => hDd (hxd ▸ hx)
          exact (List.mem_erase_of_ne hxd).mpr (hsub x (List.mem_cons_of_mem d hx))
        have hihall := ih mgr1 (cur.erase d) hcur1 hnil (hndcur.erase d)
          ((List.nodup_cons.mp hndD).2) hsub'
        have hfilter : (cur.erase d).filter (fun x => !D'.contains x) =
            cur.filter (fun x => !((d :: D').contains x)) := by
          rw [hndcur.erase_eq_filter d, List.filter_filter]
          refine List.filter_congr ?_
          intro x _
          by_cases hxd : x = d <;> simp [List.contains_cons, hxd, Bool.and_comm]
        refine ⟨?_, ?_, ?_, fun cid' hne' => ?_⟩
        · rw [hihall.1, hfilter]
        · rw [hihall.2.1]
          simp [hmgr1]
          omega
        · rw [hihall.2.2.1]
        · rw [hihall.2.2.2 cid' hne']
          exact alistLookup_update_ne _ hne'

/-- On a duplicate-free member list, not being contained in the failed
sublist is the same as the send succeeding. -/
theorem filter_not_failed {members : List Nat} (sendOk : Nat → Bool) :
    members.filter (fun x => !((members.filter (fun s => !sendOk s)).contains x)) =
      members.filter sendOk := by
  refine List.filter_congr ?_
  intro x hx
  rcases hs : sendOk x with _ | _
  · have : x ∈ members.filter (fun s => !sendOk s) :=
      List.mem_filter.mpr ⟨hx, by simp [hs]⟩
    have hcont : (members.filter (fun s => !sendOk s)).contains x = true := by
      simpa [List.elem_iff] using this
    simp [hcont, hs]
    exact hx
  · have : x ∉ members.filter (fun s => !sendOk s) := by
      intro hmem
      have := (List.mem_filter.mp hmem).2
      simp [hs] at this
    have hcont : (members.filter (fun s => !sendOk s)).contains x = false := by
      rcases hc : (members.filter (fun s => !sendOk s)).contains x with _ | _
      · rfl
      · exact absurd (by simpa [List.elem_iff] using hc) this
    simp [hcont, hs]

/-- C8 (amended): broadcasting to a complaint with a non-empty,
duplicate-free subscriber set delivers the payload to exactly the channels
whose send succeeds, removes from the registry exactly the channels whose
send errors - each counted as one unsubscription - and touches no other
complaint's entry.  The call completes without raising exactly when at
least one send succeeds: when every send fails, the cleanup deletes the
complaint's registry entry and the final connection-count logging statement
then raises a `KeyError` (`raised = true`). -/
theorem broadcast_partial_failure (sendOk : Nat → Bool) (cid : String)
    {mgr : ConnManager} {members : List Nat}
    (h : alistLookup mgr.active_connections cid = some members)
    (hne : members ≠ []) (hnd : members.Nodup) :
    (broadcastToComplaint sendOk cid mgr).delivered = members.filter sendOk ∧
    (broadcastToComplaint sendOk cid mgr).mgr.total_disconnections =
      mgr.total_disconnections + (members.filter (fun s => !sendOk s)).length ∧
    alistLookup (broadcastToComplaint sendOk cid mgr).mgr.active_connections cid =
      (if members.filter sendOk = [] then none else some (members.filter sendOk)) ∧
    ((broadcastToComplaint sendOk cid mgr).raised = true ↔
      members.filter sendOk = []) ∧
    (∀ cid', cid' ≠ cid →
      alistLookup (broadcastToComplaint sendOk cid mgr).mgr.active_connections cid' =
        alistLookup mgr.active_connections cid') := by
  have hfold := fold_disconnect_spec cid (members.filter (fun s => !sendOk s)) mgr
    members h hne hnd (hnd.filter _) (fun x hx => (List.mem_filter.mp hx).1)
  rw [filter_not_failed sendOk] at hfold
  have hres : broadcastToComplaint sendOk cid mgr =
      { delivered := members.filter sendOk
        raised := (alistLookup ((members.filter (fun s => !sendOk s)).foldl
            (fun m s => disconnectClient m cid s) mgr).active_connections cid).isNone
        mgr := (members.filter (fun s => !sendOk s)).foldl
            (fun m s => disconnectClient m cid s) mgr } := by
    simp [broadcastToComplaint, h]
  rw [hres]
  refine ⟨rfl, hfold.2.1, hfold.1, ?_, hfold.2.2.2⟩
  rw [hfold.1]
  by_cases hempty : members.filter sendOk = [] <;> simp [hempty]

/-- A registry with one complaint watched by channels 7 and 9. -/
def mgrW : ConnManager :=
  { active_connections := [("c1", [7, 9])], total_connections := 2
    total_disconnections := 0 }

theorem broadcast_partial_failure_witness :
    (broadcastToComplaint (fun s => s == 7) ("c1") mgrW).delivered =
      [7, 9].filter (fun s => s == 7) ∧
    (broadcastToComplaint (fun s => s == 7) ("c1") mgrW).mgr.total_disconnections =
      mgrW.total_disconnections + ([7, 9].filter (fun s => !(s == 7))).length ∧
    alistLookup (broadcastToComplaint (fun s => s == 7) ("c1") mgrW).mgr.active_connections ("c1") =
      (if [7, 9].filter (fun s => s == 7) = [] then none
       else some ([7, 9].filter (fun s => s == 7))) ∧
    ((broadcastToComplaint (fun s => s == 7) ("c1") mgrW).raised = true ↔
      [7, 9].filter (fun s => s == 7) = []) :=
  ⟨(@broadcast_partial_failure (fun s => s == 7) ("c1") mgrW [7, 9]
      (by rfl) (by decide) (by decide)).1,
   (@broadcast_partial_failure (fun s => s == 7) ("c1") mgrW [7, 9]
      (by rfl) (by decide) (by decide)).2.1,
   (@broadcast_partial_failure (fun s => s == 7) ("c1") mgrW [7, 9]
      (by rfl) (by decide) (by decide)).2.2.1,
   (@broadcast_partial_failure (fun s => s == 7) ("c1") mgrW [7, 9]
      (by rfl) (by decide) (by decide)).2.2.2.1⟩

/-- A registry with one complaint watched by the single channel 7. -/
def mgrFail : ConnManager :=
  { active_connections := [("c1", [7])], total_connections := 1
    total_disconnections := 0 }

/-- C8, counterexample to the raise-freedom clause: when every channel of a
non-empty subscriber set fails, both broadcasts still deliver nothing and
clean up the channels, but the final connection-count logging accesses the
just-deleted dict entry and the call raises a `KeyError` instead of
completing without error. -/
theorem broadcast_all_fail_raises :
    (broadcast_vote_update (fun _ => false) ("c1") mgrFail).raised = true ∧
    (broadcast_status_update (fun _ => false) ("c1") mgrFail).raised = true ∧
    (broadcast_vote_update (fun _ => false) ("c1") mgrFail).delivered = [] ∧
    (broadcast_vote_update (fun _ => false) ("c1") mgrFail).mgr.total_disconnections = 1 :=
  ⟨rfl, rfl, rfl, rfl⟩

-- ============================================================
-- The no-empty-set registry invariant (claim C10)
-- ============================================================

/-- The registry invariant of claim C10: `active_connections` maps no
complaint id to an empty subscriber set. -/
def NoEmptySets (mgr : ConnManager) : Prop :=
  ∀ cid s, alistLookup mgr.active_connections cid = some s → s ≠ []

theorem connect_no_empty {mgr : ConnManager} (h : NoEmptySets mgr)
    (cid : String) (sock : Nat) : NoEmptySets (connectClient mgr cid sock) := by
  intro cid' s hs
  simp only [connectClient] at hs
  by_cases hc : cid' = cid
  · subst hc
    rw [alistLookup_set_self] at hs
    injection hs with hs
    subst hs
    by_cases hm : sock ∈ (alistLookup mgr.active_connections cid').getD []
    · simp only [if_pos hm]
      exact List.ne_nil_of_mem hm
    · simp only [if_neg hm]
      simp
  · rw [alistLookup_set_ne _ _ hc] at hs
    exact h cid' s hs

theorem disconnect_no_empty {mgr : ConnManager} (h : NoEmptySets mgr)
    (cid : String) (sock : Nat) : NoEmptySets (disconnectClient mgr cid sock) := by
  intro cid' s hs
  rcases hcur : alistLookup mgr.active_connections cid with _ | cur
  · simp only [disconnectClient, hcur] at hs
    exact h cid' s hs
  · simp only [disconnectClient, hcur] at hs
    by_cases hnil : cur.erase sock = []
    · rw [if_pos hnil] at hs
      by_cases hc : cid' = cid
      · subst hc
        rw [alistLookup_remove_self] at hs
        cases hs
      · rw [alistLookup_remove_ne _ hc] at hs
        exact h cid' s hs
    · rw [if_neg hnil] at hs
      by_cases hc : cid' = cid
      · subst hc
        rw [alistLookup_update_self hcur] at hs
        injection hs with hs
        subst hs
        exact hnil
      · rw [alistLookup_update_ne _ hc] at hs
        exact h cid' s hs

theorem fold_disconnect_no_empty (cid : String) :
    ∀ (l : List Nat) (mgr : ConnManager), NoEmptySets mgr →
      NoEmptySets (l.foldl (fun m s => disconnectClient m cid s) mgr) := by
  intro l
  induction l with
  | nil =>
      intro mgr h
      simpa using h
  | cons x xs ih =>
      intro mgr h
      rw [List.foldl_cons]
      exact ih _ (disconnect_no_empty h cid x)

theorem broadcast_no_empty (sendOk : Nat → Bool) (cid : String)
    {mgr : ConnManager} (h : NoEmptySets mgr) :
    NoEmptySets (broadcastToComplaint sendOk cid mgr).mgr := by
  rcases hl : alistLookup mgr.active_connections cid with _ | members
  · simpa [broadcastToComplaint, hl] using h
  · simp only [broadcastToComplaint, hl]
    exact fold_disconnect_no_empty cid _ mgr h

theorem registryOp_no_empty {mgr : ConnManager} (h : NoEmptySets mgr)
    (op : RegistryOp) : NoEmptySets (applyRegistryOp mgr op) := by
  rcases op with ⟨cid, sock⟩ | ⟨cid, sock⟩ | ⟨cid, sendOk⟩ | ⟨cid, sendOk⟩
  · exact connect_no_empty h cid sock
  · exact disconnect_no_empty h cid sock
  · exact broadcast_no_empty sendOk cid h
  · exact broadcast_no_empty sendOk cid h

/-- C10: starting from a fresh `ConnectionManager`, after any sequence of
connect, disconnect, and broadcast-cleanup operations the registry maps no
complaint id to an empty subscriber set: connect only creates an entry
together with its first member, and every removal that empties a set deletes
its entry. -/
theorem registry_no_empty_sets (ops : List RegistryOp) :
    ∀ cid s,
      alistLookup (applyRegistryOps ops freshManager).active_connections cid = some s →
      s ≠ [] := by
  have hpres : ∀ (ops' : List RegistryOp) (mgr : ConnManager), NoEmptySets mgr →
      NoEmptySets (applyRegistryOps ops' mgr) := by
    intro ops'
    induction ops' with
    | nil =>
        intro mgr h
        simpa [applyRegistryOps] using h
    | cons o rest ih =>
        intro mgr h
        rw [applyRegistryOps, List.foldl_cons]
        exact ih _ (registryOp_no_empty h o)
  exact hpres ops freshManager (fun cid s hs => by simp [freshManager, alistLookup] at hs)

theorem registry_no_empty_sets_witness : ([7] : List Nat) ≠ [] :=
  registry_no_empty_sets [RegistryOp.connect ("c1") 7] ("c1") [7] (by rfl)

end CampusVoice
